import Mathlib

/-!
# Shallow embedding of the `registry` value codec

This file embeds the binary value codec of the repository (its files
`src/value.rs` and `src/util.rs`) and proves properties of the encode and
decode paths.

Modelling conventions:
* A byte is a `Nat` (where it matters, theorems assume `< 256`); a 16-bit
  code unit is a `Nat` (assumed `< 65536` where it matters).
* `U16CString` values are modelled by their contents: the list of code
  units *without* the terminating nul.  The `utfx` crate's constructors
  `U16CString::new` (rejects interior nuls) and
  `U16CString::from_vec_with_nul` (truncates at the first nul, errors when
  there is none) are embedded below.
* Rust functions that can panic (out-of-bounds `Vec` indexing in the
  numeric decode arms) are wrapped in `Option`: `Option.none` is a panic.
* `query_value` hands `parse_value_type_data` a `Vec<u16>` that it filled
  with the store's `sz` bytes after allocating `sz / 2 + sz % 2` zeroed
  `u16`s; `bytes_to_u16` below reproduces exactly that byte-to-code-unit
  reinterpretation (little-endian pairs, an odd tail padded with a zero
  byte).
-/

namespace Registry

/-- The decode-relevant variants of `value::Error`.  `NotFound`,
`PermissionDenied`, `Unknown` and `BufferSize` only arise from OS calls and
carry no codec content; the payloads of the remaining variants are dropped
except for the numeric tag / length. -/
inductive Error where
  | unhandledType (tag : Nat)
  | invalidNul
  | missingNul
  | missingMultiNul
  | invalidUtf16
  | invalidBufferSize (len : Nat)
  deriving DecidableEq, Repr

/-- `value::Type`: the closed tag enumeration, `repr(u32)`, tags 0–11. -/
inductive Ty where
  | none
  | string
  | expandString
  | binary
  | u32
  | u32be
  | link
  | multiString
  | resourceList
  | fullResourceDescriptor
  | resourceRequirementsList
  | u64
  deriving DecidableEq, Repr

/-- `Type::MAX`. -/
def Ty.MAX : Nat := 11

/-- The numeric value of each tag (the `repr(u32)` discriminant). -/
def Ty.code : Ty → Nat
  | .none => 0
  | .string => 1
  | .expandString => 2
  | .binary => 3
  | .u32 => 4
  | .u32be => 5
  | .link => 6
  | .multiString => 7
  | .resourceList => 8
  | .fullResourceDescriptor => 9
  | .resourceRequirementsList => 10
  | .u64 => 11

/-- `Type::try_from(u32)`: reject tags above `Type::MAX`, otherwise the
(validated) transmute, written as an explicit mapping.  The error payload is
the offending tag (`TryIntoTypeError`). -/
def Ty.tryFrom (ty : Nat) : Except Nat Ty :=
  if ty > Ty.MAX then .error ty
  else .ok (match ty with
    | 0 => .none
    | 1 => .string
    | 2 => .expandString
    | 3 => .binary
    | 4 => .u32
    | 5 => .u32be
    | 6 => .link
    | 7 => .multiString
    | 8 => .resourceList
    | 9 => .fullResourceDescriptor
    | 10 => .resourceRequirementsList
    | _ => .u64)

/-- `value::Data`: strings are their code-unit contents (no terminating
nul), binary payloads are byte lists, integers are `Nat`. -/
inductive Data where
  | none
  | string (s : List Nat)
  | expandString (s : List Nat)
  | binary (b : List Nat)
  | u32 (v : Nat)
  | u32be (v : Nat)
  | link
  | multiString (l : List (List Nat))
  | resourceList
  | fullResourceDescriptor
  | resourceRequirementsList
  | u64 (v : Nat)
  deriving DecidableEq, Repr

/-- `Data::as_type`. -/
def Data.as_type : Data → Ty
  | .none => .none
  | .string _ => .string
  | .expandString _ => .expandString
  | .binary _ => .binary
  | .u32 _ => .u32
  | .u32be _ => .u32be
  | .link => .link
  | .multiString _ => .multiString
  | .resourceList => .resourceList
  | .fullResourceDescriptor => .fullResourceDescriptor
  | .resourceRequirementsList => .resourceRequirementsList
  | .u64 _ => .u64

/-- `u16::to_le_bytes`: the two bytes of a code unit, low byte first. -/
def u16le (x : Nat) : List Nat := [x % 256, x / 256 % 256]

/-- `u32::to_le_bytes`. -/
def u32le (x : Nat) : List Nat :=
  [x % 256, x / 2 ^ 8 % 256, x / 2 ^ 16 % 256, x / 2 ^ 24 % 256]

/-- `u32::to_be_bytes`. -/
def u32be_bytes (x : Nat) : List Nat := (u32le x).reverse

/-- `u64::to_le_bytes`. -/
def u64le (x : Nat) : List Nat :=
  [x % 256, x / 2 ^ 8 % 256, x / 2 ^ 16 % 256, x / 2 ^ 24 % 256,
   x / 2 ^ 32 % 256, x / 2 ^ 40 % 256, x / 2 ^ 48 % 256, x / 2 ^ 56 % 256]

/-- `utfx::U16CString::new`: fails with a nul error when the vector
contains a nul code unit anywhere, otherwise keeps the contents. -/
def U16CString.new (v : List Nat) : Except Error (List Nat) :=
  if 0 ∈ v then .error .invalidNul else .ok v

/-- `utfx::U16CString::from_vec_with_nul`: fails with a missing-nul error
when the vector contains no nul at all; otherwise truncates at the first
nul, the contents being the units before it. -/
def U16CString.from_vec_with_nul (v : List Nat) : Except Error (List Nat) :=
  if 0 ∈ v then .ok (v.takeWhile (· ≠ 0)) else .error .missingNul

/-- `utfx::U16CString::into_vec_with_nul`: the contents plus the nul. -/
def U16CString.into_vec_with_nul (s : List Nat) : List Nat := s ++ [0]

/-- `value::string_to_utf16_byte_vec`: the code units with the nul, each
emitted as two little-endian bytes. -/
def string_to_utf16_byte_vec (s : List Nat) : List Nat :=
  (U16CString.into_vec_with_nul s).flatMap u16le

/-- `value::multi_string_bytes`: each entry's nul-terminated byte encoding
concatenated, then two extra zero *bytes* pushed. -/
def multi_string_bytes (l : List (List Nat)) : List Nat :=
  (l.flatMap string_to_utf16_byte_vec) ++ [0, 0]

/-- `Data::to_bytes`. -/
def Data.to_bytes : Data → List Nat
  | .none => []
  | .string s => string_to_utf16_byte_vec s
  | .expandString s => string_to_utf16_byte_vec s
  | .binary b => b
  | .u32 x => u32le x
  | .u32be x => u32be_bytes x
  | .link => []
  | .multiString l => multi_string_bytes l
  | .resourceList => []
  | .fullResourceDescriptor => []
  | .resourceRequirementsList => []
  | .u64 x => u64le x

/-- The encode path used by `set_value`: the raw tag and the bytes. -/
def encode (d : Data) : Nat × List Nat := (d.as_type.code, d.to_bytes)

/-- `value::parse_wide_string_nul`. -/
def parse_wide_string_nul (v : List Nat) : Except Error (List Nat) :=
  U16CString.from_vec_with_nul v

/-- Rust's `Iterator::collect::<Result<Vec<_>, _>>`: the list of values
when every item is `ok`, otherwise the first error. -/
def collect_results {α : Type} : List (Except Error α) → Except Error (List α)
  | [] => .ok []
  | .error e :: _ => .error e
  | .ok x :: rest => (collect_results rest).map (x :: ·)

/-- `value::parse_wide_multi_string`: require at least two code units with
the last two both zero, then split everything before them on nul and build
each segment with `U16CString::new`. -/
def parse_wide_multi_string (v : List Nat) : Except Error (List (List Nat)) :=
  if v.length < 2 ∨ v.getD (v.length - 1) 0 ≠ 0 ∨ v.getD (v.length - 2) 0 ≠ 0 then
    .error .missingMultiNul
  else
    collect_results (((v.take (v.length - 2)).splitOn 0).map U16CString.new)

/-- `value::u16_to_u8_vec`: reinterpret code units as little-endian byte
pairs. -/
def u16_to_u8_vec (v : List Nat) : List Nat := v.flatMap u16le

/-- `value::parse_value_type_data`.  `Option.none` models a panic (the
numeric arms index the byte buffer unconditionally). -/
def parse_value_type_data (ty : Nat) (buf : List Nat) : Option (Except Error Data) :=
  match Ty.tryFrom ty with
  | .error t => some (.error (.unhandledType t))
  | .ok t =>
    match t with
    | .none => some (.ok .none)
    | .string => some ((parse_wide_string_nul buf).map Data.string)
    | .expandString => some ((parse_wide_string_nul buf).map Data.expandString)
    | .link => some (.ok .link)
    | .multiString => some ((parse_wide_multi_string buf).map Data.multiString)
    | .resourceList => some (.ok .resourceList)
    | .fullResourceDescriptor => some (.ok .fullResourceDescriptor)
    | .resourceRequirementsList => some (.ok .resourceRequirementsList)
    | .binary => some (.ok (.binary (u16_to_u8_vec buf)))
    | .u32 =>
      match u16_to_u8_vec buf with
      | b0 :: b1 :: b2 :: b3 :: _ =>
        some (.ok (.u32 (b0 + 2 ^ 8 * b1 + 2 ^ 16 * b2 + 2 ^ 24 * b3)))
      | _ => Option.none
    | .u32be =>
      match u16_to_u8_vec buf with
      | b0 :: b1 :: b2 :: b3 :: _ =>
        some (.ok (.u32be (2 ^ 24 * b0 + 2 ^ 16 * b1 + 2 ^ 8 * b2 + b3)))
      | _ => Option.none
    | .u64 =>
      match u16_to_u8_vec buf with
      | b0 :: b1 :: b2 :: b3 :: b4 :: b5 :: b6 :: b7 :: _ =>
        some (.ok (.u64 (b0 + 2 ^ 8 * b1 + 2 ^ 16 * b2 + 2 ^ 24 * b3 +
          2 ^ 32 * b4 + 2 ^ 40 * b5 + 2 ^ 48 * b6 + 2 ^ 56 * b7)))
      | _ => Option.none

/-- The byte-to-code-unit reinterpretation done by `query_value` before it
calls `parse_value_type_data`: it allocates `sz / 2 + sz % 2` zeroed `u16`s
and lets the store write `sz` bytes into them, so consecutive byte pairs
become little-endian code units and an odd trailing byte is completed by a
zero byte. -/
def bytes_to_u16 : List Nat → List Nat
  | [] => []
  | [b] => [b]
  | b0 :: b1 :: rest => (b0 + 256 * b1) :: bytes_to_u16 rest

/-- The full decode path on a raw byte buffer, as `query_value` performs
it: reinterpret as code units, then parse.  `Option.none` is a panic. -/
def decode (tag : Nat) (bytes : List Nat) : Option (Except Error Data) :=
  parse_value_type_data tag (bytes_to_u16 bytes)

/-- `util::U16AlignedU8Vec::new`: allocate `size / 2 + size % 2` zeroed
`u16`s, view them as bytes, truncate to `size`. -/
def U16AlignedU8Vec.new (size : Nat) : List Nat :=
  (u16_to_u8_vec (List.replicate (size / 2 + size % 2) 0)).take size

/-- `util::U16AlignedU8Vec::into_u16_vec`: push one zero byte when the
length is odd, then view byte pairs as code units. -/
def U16AlignedU8Vec.into_u16_vec (buf : List Nat) : List Nat :=
  bytes_to_u16 (if buf.length % 2 > 0 then buf ++ [0] else buf)

/-- The numeric value denoted by a byte list read in little-endian order
(least significant byte first); used to state what "the bytes of `v` in
little-endian order" means. -/
def le_val : List Nat → Nat
  | [] => 0
  | b :: bs => b + 256 * le_val bs

/-! ## Lemmas about the byte / code-unit reinterpretations -/

theorem bytes_to_u16_length (bs : List Nat) :
    (bytes_to_u16 bs).length = (bs.length + 1) / 2 := by
  induction bs using bytes_to_u16.induct with
  | case1 => simp [bytes_to_u16]
  | case2 b => simp [bytes_to_u16]
  | case3 b0 b1 rest ih => simp [bytes_to_u16, ih]; omega

theorem bytes_to_u16_flatMap_u16le (us : List Nat) (h : ∀ u ∈ us, u < 65536) :
    bytes_to_u16 (us.flatMap u16le) = us := by
  induction us with
  | nil => rfl
  | cons u us ih =>
    have hu : u < 65536 := h u (by simp)
    have hstep : bytes_to_u16 ((u % 256) :: (u / 256 % 256) :: us.flatMap u16le)
        = (u % 256 + 256 * (u / 256 % 256)) :: bytes_to_u16 (us.flatMap u16le) := rfl
    have ih' := ih (fun x hx => h x (by simp [hx]))
    simp only [List.flatMap_cons, u16le, List.cons_append, List.nil_append, hstep, ih']
    congr 1
    omega

theorem u16_to_u8_vec_bytes_to_u16 (bs : List Nat) (h : ∀ b ∈ bs, b < 256)
    (he : bs.length % 2 = 0) : u16_to_u8_vec (bytes_to_u16 bs) = bs := by
  induction bs using bytes_to_u16.induct with
  | case1 => rfl
  | case2 b => simp at he
  | case3 b0 b1 rest ih =>
    have h0 : b0 < 256 := h b0 (by simp)
    have h1 : b1 < 256 := h b1 (by simp)
    have hr : ∀ b ∈ rest, b < 256 := fun b hb => h b (by simp [hb])
    have he' : rest.length % 2 = 0 := by simp at he; omega
    have hstep : bytes_to_u16 (b0 :: b1 :: rest) = (b0 + 256 * b1) :: bytes_to_u16 rest := rfl
    rw [hstep]
    show u16le (b0 + 256 * b1) ++ u16_to_u8_vec (bytes_to_u16 rest) = b0 :: b1 :: rest
    rw [ih hr he']
    simp only [u16le, List.cons_append, List.nil_append]
    congr 2 <;> omega

theorem bytes_to_u16_append_zero (bs : List Nat) (h : bs.length % 2 = 1) :
    bytes_to_u16 (bs ++ [0]) = bytes_to_u16 bs := by
  induction bs using bytes_to_u16.induct with
  | case1 => simp at h
  | case2 b => show [b + 256 * 0] = [b]; simp
  | case3 b0 b1 rest ih =>
    have h' : rest.length % 2 = 1 := by simp at h; omega
    show (b0 + 256 * b1) :: bytes_to_u16 (rest ++ [0]) = (b0 + 256 * b1) :: bytes_to_u16 rest
    rw [ih h']

theorem flatMap_u16le_length (us : List Nat) : (us.flatMap u16le).length = 2 * us.length := by
  induction us with
  | nil => rfl
  | cons u us ih => simp [List.flatMap_cons, u16le, ih]; omega

/-! ## Lemmas about the string and multi-string parsers -/

theorem parse_wide_string_nul_cases (v : List Nat) :
    parse_wide_string_nul v = .ok (v.takeWhile (· ≠ 0)) ∨
      parse_wide_string_nul v = .error .missingNul := by
  unfold parse_wide_string_nul U16CString.from_vec_with_nul
  split
  · exact Or.inl rfl
  · exact Or.inr rfl

theorem collect_results_ok_length {α : Type} (xs : List (Except Error α)) (l : List α)
    (h : collect_results xs = .ok l) : l.length = xs.length := by
  induction xs generalizing l with
  | nil =>
    simp only [collect_results] at h
    cases h
    rfl
  | cons x xs ih =>
    cases x with
    | error e => simp [collect_results] at h
    | ok a =>
      simp only [collect_results] at h
      cases hc : collect_results xs with
      | error e => rw [hc] at h; simp [Except.map] at h
      | ok l' =>
        rw [hc] at h
        simp only [Except.map] at h
        cases h
        simp [ih l' hc]

theorem collect_results_map_new_ok (L : List (List Nat)) (h : ∀ s ∈ L, (0 : Nat) ∉ s) :
    collect_results (L.map U16CString.new) = .ok L := by
  induction L with
  | nil => rfl
  | cons s L ih =>
    have hs : U16CString.new s = .ok s := by
      unfold U16CString.new
      rw [if_neg (h s (by simp))]
    rw [List.map_cons, hs]
    show (collect_results (L.map U16CString.new)).map (s :: ·) = .ok (s :: L)
    rw [ih (fun t ht => h t (by simp [ht]))]
    rfl

theorem collect_results_map_new_error (L : List (List Nat)) (e : Error)
    (h : collect_results (L.map U16CString.new) = .error e) : e = .invalidNul := by
  induction L with
  | nil => simp [collect_results] at h
  | cons s L ih =>
    rw [List.map_cons] at h
    by_cases h0 : (0 : Nat) ∈ s
    · have hs : U16CString.new s = .error .invalidNul := by
        unfold U16CString.new
        rw [if_pos h0]
      rw [hs] at h
      simp only [collect_results] at h
      cases h
      rfl
    · have hs : U16CString.new s = .ok s := by
        unfold U16CString.new
        rw [if_neg h0]
      rw [hs] at h
      have h' : (collect_results (L.map U16CString.new)).map (s :: ·) = .error e := h
      cases hc : collect_results (L.map U16CString.new) with
      | error e' =>
        rw [hc] at h'
        simp only [Except.map] at h'
        cases h'
        exact ih hc
      | ok l' => rw [hc] at h'; simp [Except.map] at h'

theorem splitOn_zero_not_mem (xs : List Nat) : ∀ s ∈ xs.splitOn 0, (0 : Nat) ∉ s := by
  induction xs with
  | nil =>
    intro s hs
    simp only [List.splitOn, List.splitOnP_nil, List.mem_singleton] at hs
    simp [hs]
  | cons a xs ih =>
    intro s hs
    simp only [List.splitOn] at hs ih
    rw [List.splitOnP_cons] at hs
    by_cases ha : a = 0
    · subst ha
      simp only [beq_self_eq_true, if_pos] at hs
      rcases List.mem_cons.mp hs with h | h
      · simp [h]
      · exact ih s h
    · rw [if_neg (by simpa using ha)] at hs
      cases hsp : xs.splitOnP (· == 0) with
      | nil => exact absurd hsp (List.splitOnP_ne_nil _ xs)
      | cons hd tl =>
        rw [hsp] at hs
        simp only [List.modifyHead] at hs
        rcases List.mem_cons.mp hs with h | h
        · subst h
          intro hmem
          rcases List.mem_cons.mp hmem with h' | h'
          · exact ha h'.symm
          · have hhd : hd ∈ xs.splitOnP (· == 0) := by
              rw [hsp]; exact List.mem_cons_self hd tl
            exact ih hd hhd h'
        · have hmem : s ∈ xs.splitOnP (· == 0) := by
            rw [hsp]; exact List.mem_cons_of_mem hd h
          exact ih s hmem

theorem splitOn_zero_single (s : List Nat) (hs : (0 : Nat) ∉ s) : s.splitOn 0 = [s] := by
  simp only [List.splitOn]
  refine List.splitOnP_eq_single _ _ ?_
  intro x hx
  simp only [beq_iff_eq]
  intro hx0
  rw [hx0] at hx
  exact hs hx

theorem splitOn_zero_append (s t : List Nat) (hs : (0 : Nat) ∉ s) :
    (s ++ 0 :: t).splitOn 0 = s :: t.splitOn 0 := by
  simp only [List.splitOn]
  refine List.splitOnP_first _ _ ?_ 0 (by simp) t
  intro x hx
  simp only [beq_iff_eq]
  intro hx0
  rw [hx0] at hx
  exact hs hx

theorem multi_units_split (l : List (List Nat)) (hne : l ≠ [])
    (h : ∀ s ∈ l, (0 : Nat) ∉ s) :
    ∃ C : List Nat, (l.flatMap fun s => s ++ [0]) ++ [0] = C ++ [0, 0] ∧
      C.splitOn 0 = l := by
  induction l with
  | nil => exact absurd rfl hne
  | cons s l ih =>
    cases l with
    | nil =>
      refine ⟨s, by simp, ?_⟩
      exact splitOn_zero_single s (h s (by simp))
    | cons s' l' =>
      obtain ⟨C, hC, hCs⟩ := ih (by simp) (fun t ht => h t (List.mem_cons_of_mem s ht))
      refine ⟨s ++ 0 :: C, ?_, ?_⟩
      · rw [List.flatMap_cons, List.append_assoc, hC]
        simp
      · rw [splitOn_zero_append s C (h s (by simp)), hCs]

theorem parse_wide_multi_string_guard_ok (v : List Nat)
    (h : 2 ≤ v.length ∧ v.getD (v.length - 1) 0 = 0 ∧ v.getD (v.length - 2) 0 = 0) :
    parse_wide_multi_string v =
      collect_results (((v.take (v.length - 2)).splitOn 0).map U16CString.new) := by
  unfold parse_wide_multi_string
  rw [if_neg]
  push_neg
  exact ⟨by omega, h.2.1, h.2.2⟩

theorem parse_wide_multi_string_ok (v : List Nat)
    (h : 2 ≤ v.length ∧ v.getD (v.length - 1) 0 = 0 ∧ v.getD (v.length - 2) 0 = 0) :
    parse_wide_multi_string v = .ok ((v.take (v.length - 2)).splitOn 0) := by
  rw [parse_wide_multi_string_guard_ok v h]
  exact collect_results_map_new_ok _ (splitOn_zero_not_mem _)

theorem parse_wide_multi_string_fail (v : List Nat)
    (h : ¬(2 ≤ v.length ∧ v.getD (v.length - 1) 0 = 0 ∧ v.getD (v.length - 2) 0 = 0)) :
    parse_wide_multi_string v = .error .missingMultiNul := by
  unfold parse_wide_multi_string
  rw [if_pos]
  by_contra hc
  push_neg at hc
  exact h ⟨by omega, hc.2.1, hc.2.2⟩

theorem parse_wide_multi_string_append (w : List Nat) :
    parse_wide_multi_string (w ++ [0, 0]) =
      collect_results ((w.splitOn 0).map U16CString.new) := by
  have hlen : (w ++ [0, 0]).length = w.length + 2 := by simp
  have h1 : (w ++ [0, 0]).getD ((w ++ [0, 0]).length - 1) 0 = 0 := by
    rw [hlen]
    have e : w.length + 2 - 1 = w.length + 1 := by omega
    rw [e, List.getD_append_right w [0, 0] 0 (w.length + 1) (by omega)]
    simp
  have h2 : (w ++ [0, 0]).getD ((w ++ [0, 0]).length - 2) 0 = 0 := by
    rw [hlen]
    have e : w.length + 2 - 2 = w.length := by omega
    rw [e, List.getD_append_right w [0, 0] 0 w.length (by omega)]
    simp
  have htake : (w ++ [0, 0]).take ((w ++ [0, 0]).length - 2) = w := by
    rw [hlen]
    have e : w.length + 2 - 2 = w.length := by omega
    rw [e]
    exact List.take_left w [0, 0]
  rw [parse_wide_multi_string_guard_ok (w ++ [0, 0]) ⟨by omega, h1, h2⟩, htake]

/-! ## Reduction of `parse_value_type_data` at each concrete tag -/

theorem Ty.tryFrom_gt (tag : Nat) (h : 11 < tag) : Ty.tryFrom tag = .error tag := by
  unfold Ty.tryFrom
  rw [if_pos]
  exact h

theorem parse_value_type_data_gt (tag : Nat) (buf : List Nat) (h : 11 < tag) :
    parse_value_type_data tag buf = some (.error (.unhandledType tag)) := by
  unfold parse_value_type_data
  rw [Ty.tryFrom_gt tag h]

theorem parse_value_type_data_string (buf : List Nat) :
    parse_value_type_data 1 buf = some ((parse_wide_string_nul buf).map Data.string) := rfl

theorem parse_value_type_data_expandString (buf : List Nat) :
    parse_value_type_data 2 buf =
      some ((parse_wide_string_nul buf).map Data.expandString) := rfl

theorem parse_value_type_data_multiString (buf : List Nat) :
    parse_value_type_data 7 buf =
      some ((parse_wide_multi_string buf).map Data.multiString) := rfl

theorem parse_value_type_data_u32_shape (buf : List Nat) :
    parse_value_type_data 4 buf = Option.none ∨
      ∃ d, parse_value_type_data 4 buf = some (.ok d) := by
  have heq : parse_value_type_data 4 buf =
      (match u16_to_u8_vec buf with
        | b0 :: b1 :: b2 :: b3 :: _ =>
          some (.ok (.u32 (b0 + 2 ^ 8 * b1 + 2 ^ 16 * b2 + 2 ^ 24 * b3)))
        | _ => Option.none) := rfl
  rw [heq]
  rcases u16_to_u8_vec buf with _ | ⟨b0, _ | ⟨b1, _ | ⟨b2, _ | ⟨b3, rest⟩⟩⟩⟩ <;> simp

theorem parse_value_type_data_u32be_shape (buf : List Nat) :
    parse_value_type_data 5 buf = Option.none ∨
      ∃ d, parse_value_type_data 5 buf = some (.ok d) := by
  have heq : parse_value_type_data 5 buf =
      (match u16_to_u8_vec buf with
        | b0 :: b1 :: b2 :: b3 :: _ =>
          some (.ok (.u32be (2 ^ 24 * b0 + 2 ^ 16 * b1 + 2 ^ 8 * b2 + b3)))
        | _ => Option.none) := rfl
  rw [heq]
  rcases u16_to_u8_vec buf with _ | ⟨b0, _ | ⟨b1, _ | ⟨b2, _ | ⟨b3, rest⟩⟩⟩⟩ <;> simp

theorem parse_value_type_data_u64_shape (buf : List Nat) :
    parse_value_type_data 11 buf = Option.none ∨
      ∃ d, parse_value_type_data 11 buf = some (.ok d) := by
  have heq : parse_value_type_data 11 buf =
      (match u16_to_u8_vec buf with
        | b0 :: b1 :: b2 :: b3 :: b4 :: b5 :: b6 :: b7 :: _ =>
          some (.ok (.u64 (b0 + 2 ^ 8 * b1 + 2 ^ 16 * b2 + 2 ^ 24 * b3 +
            2 ^ 32 * b4 + 2 ^ 40 * b5 + 2 ^ 48 * b6 + 2 ^ 56 * b7)))
        | _ => Option.none) := rfl
  rw [heq]
  rcases u16_to_u8_vec buf with
    _ | ⟨b0, _ | ⟨b1, _ | ⟨b2, _ | ⟨b3, _ | ⟨b4, _ | ⟨b5, _ | ⟨b6, _ | ⟨b7, rest⟩⟩⟩⟩⟩⟩⟩⟩ <;> simp

theorem parse_wide_multi_string_ok_ne_nil (v : List Nat) (l : List (List Nat))
    (h : parse_wide_multi_string v = .ok l) : l ≠ [] := by
  by_cases hg : 2 ≤ v.length ∧ v.getD (v.length - 1) 0 = 0 ∧ v.getD (v.length - 2) 0 = 0
  · rw [parse_wide_multi_string_ok v hg] at h
    cases h
    intro hnil
    have := List.splitOnP_ne_nil (fun x => x == 0) (v.take (v.length - 2))
    exact this (by simpa [List.splitOn] using hnil)
  · rw [parse_wide_multi_string_fail v hg] at h
    cases h

/-! ## Claims -/

/-- Claim C1 (amended): the multi-string round-trip holds for every
*nonempty* list of strings that are free of embedded NULs: decoding the
MultiString tag together with the buffer produced by encoding the list
succeeds and returns exactly the same list, preserving order and count.
(The empty list does not round-trip: see the counterexample.) -/
theorem c1_multistring_roundtrip_nonempty (l : List (List Nat)) (hne : l ≠ [])
    (h : ∀ s ∈ l, ∀ c ∈ s, c ≠ 0 ∧ c < 65536) :
    decode (encode (.multiString l)).1 (encode (.multiString l)).2 =
      some (.ok (.multiString l)) := by
  have h0 : ∀ s ∈ l, (0 : Nat) ∉ s := fun s hs hc => (h s hs 0 hc).1 rfl
  have hbytes : (encode (Data.multiString l)).2 =
      ((l.flatMap fun s => s ++ [0]) ++ [0]).flatMap u16le := by
    show multi_string_bytes l = _
    rw [List.flatMap_append]
    unfold multi_string_bytes string_to_utf16_byte_vec U16CString.into_vec_with_nul
    rw [List.flatMap_assoc]
    rfl
  have hunits : bytes_to_u16 (encode (Data.multiString l)).2 =
      (l.flatMap fun s => s ++ [0]) ++ [0] := by
    rw [hbytes]
    apply bytes_to_u16_flatMap_u16le
    intro u hu
    rcases List.mem_append.mp hu with hu | hu
    · rcases List.mem_flatMap.mp hu with ⟨s, hs, hus⟩
      rcases List.mem_append.mp hus with hus | hus
      · exact (h s hs u hus).2
      · simp at hus
        omega
    · simp at hu
      omega
  obtain ⟨C, hC, hCs⟩ := multi_units_split l hne h0
  show parse_value_type_data (encode (Data.multiString l)).1
      (bytes_to_u16 (encode (Data.multiString l)).2) = _
  rw [show (encode (Data.multiString l)).1 = 7 from rfl]
  rw [parse_value_type_data_multiString, hunits, hC, parse_wide_multi_string_append, hCs,
    collect_results_map_new_ok l h0]
  rfl

/-- Claim C1 counterexample: encoding the empty multi-string list pushes
only two zero *bytes* (one code unit), so decoding its own output fails
with `MissingMultiNul` instead of returning the empty list. -/
theorem c1_counterexample :
    decode (encode (.multiString [])).1 (encode (.multiString [])).2 =
      some (.error .missingMultiNul) := rfl

/-- Claim C1 witness: the two-element list `["a", "b"]` round-trips. -/
theorem c1_witness :
    (([[0x61], [0x62]] : List (List Nat)) ≠ [] ∧
      ∀ s ∈ ([[0x61], [0x62]] : List (List Nat)), ∀ c ∈ s, c ≠ 0 ∧ c < 65536) ∧
    decode (encode (.multiString [[0x61], [0x62]])).1
        (encode (.multiString [[0x61], [0x62]])).2 =
      some (.ok (.multiString [[0x61], [0x62]])) :=
  ⟨⟨by decide, by decide⟩,
    c1_multistring_roundtrip_nonempty [[0x61], [0x62]] (by decide) (by decide)⟩

/-- Claim C2 (code bug): decoding the U32 tag with the two-byte buffer
`[0x01, 0x02]` panics (out-of-bounds index on the byte buffer, modelled as
`Option.none`) instead of returning a typed truncated-numeric error; the
same happens for U32BE with fewer than 3 bytes and U64 with fewer than 7
bytes, while a 3-byte U32 buffer even *succeeds* because the byte-to-code-
unit conversion zero-pads the odd byte. -/
theorem c2_truncated_numeric_panics :
    decode 4 [0x01, 0x02] = Option.none ∧
    decode 4 [] = Option.none ∧
    decode 5 [0x01, 0x02] = Option.none ∧
    decode 11 [1, 2, 3, 4, 5, 6] = Option.none ∧
    decode 4 [0x01, 0x02, 0x03] = some (.ok (.u32 0x030201)) :=
  ⟨rfl, rfl, rfl, rfl, rfl⟩

/-- Claim C3 counterexample: a buffer whose code units are the unpaired
surrogate `0xD800` followed by a nul decodes *successfully* under the
String tag — it is not rejected with `InvalidUtf16`. -/
theorem c3_counterexample :
    decode 1 [0x00, 0xD8, 0x00, 0x00] = some (.ok (.string [0xD800])) ∧
    decode 1 [0x00, 0xD8, 0x00, 0x00] ≠ some (.error .invalidUtf16) := by
  constructor
  · rfl
  · intro h
    rw [show decode 1 [0x00, 0xD8, 0x00, 0x00] = some (.ok (.string [0xD800])) from rfl] at h
    simp at h

/-- Claim C3 (amended): decoding the String or ExpandString tag performs no
UTF-16 well-formedness validation at all: for every buffer it either fails
with `MissingNul` (no zero code unit present) or succeeds with the raw code
units before the first zero unit — ill-formed sequences such as unpaired
surrogates are accepted, and `InvalidUtf16` is never produced. -/
theorem c3_no_utf16_validation (bytes : List Nat) :
    (decode 1 bytes = some (.error .missingNul) ∨
      ∃ s, decode 1 bytes = some (.ok (.string s))) ∧
    (decode 2 bytes = some (.error .missingNul) ∨
      ∃ s, decode 2 bytes = some (.ok (.expandString s))) := by
  constructor
  · rcases parse_wide_string_nul_cases (bytes_to_u16 bytes) with h | h
    · right
      refine ⟨(bytes_to_u16 bytes).takeWhile (· ≠ 0), ?_⟩
      show parse_value_type_data 1 (bytes_to_u16 bytes) = _
      rw [parse_value_type_data_string, h]
      rfl
    · left
      show parse_value_type_data 1 (bytes_to_u16 bytes) = _
      rw [parse_value_type_data_string, h]
      rfl
  · rcases parse_wide_string_nul_cases (bytes_to_u16 bytes) with h | h
    · right
      refine ⟨(bytes_to_u16 bytes).takeWhile (· ≠ 0), ?_⟩
      show parse_value_type_data 2 (bytes_to_u16 bytes) = _
      rw [parse_value_type_data_expandString, h]
      rfl
    · left
      show parse_value_type_data 2 (bytes_to_u16 bytes) = _
      rw [parse_value_type_data_expandString, h]
      rfl

/-- Claim C4 counterexample: the 3-byte (odd-length) buffer
`[0x61, 0x00, 0x00]` decodes *successfully* under the String tag (the odd
tail byte is zero-padded during the byte-to-code-unit conversion), so
decode does not fail with `InvalidBufferSize` on odd-length buffers. -/
theorem c4_counterexample :
    decode 1 [0x61, 0x00, 0x00] = some (.ok (.string [0x61])) ∧
    ∀ n, decode 1 [0x61, 0x00, 0x00] ≠ some (.error (.invalidBufferSize n)) := by
  constructor
  · rfl
  · intro n h
    rw [show decode 1 [0x61, 0x00, 0x00] = some (.ok (.string [0x61])) from rfl] at h
    simp at h

/-- Claim C4 (amended): an odd-length byte buffer decoded with the String
or ExpandString tag is zero-padded to even length by the byte-to-code-unit
conversion and then decoded exactly like its padded form; decode never
returns `InvalidBufferSize` (that error variant is deprecated and unused)
and never panics on these tags. -/
theorem c4_odd_length_padded (bytes : List Nat) (hodd : bytes.length % 2 = 1) :
    (decode 1 bytes = decode 1 (bytes ++ [0]) ∧
      decode 2 bytes = decode 2 (bytes ++ [0])) ∧
    (∀ n, decode 1 bytes ≠ some (.error (.invalidBufferSize n)) ∧
      decode 2 bytes ≠ some (.error (.invalidBufferSize n))) ∧
    decode 1 bytes ≠ Option.none ∧ decode 2 bytes ≠ Option.none := by
  have hpad : bytes_to_u16 (bytes ++ [0]) = bytes_to_u16 bytes :=
    bytes_to_u16_append_zero bytes hodd
  refine ⟨⟨?_, ?_⟩, ?_, ?_, ?_⟩
  · show parse_value_type_data 1 (bytes_to_u16 bytes) =
      parse_value_type_data 1 (bytes_to_u16 (bytes ++ [0]))
    rw [hpad]
  · show parse_value_type_data 2 (bytes_to_u16 bytes) =
      parse_value_type_data 2 (bytes_to_u16 (bytes ++ [0]))
    rw [hpad]
  · intro n
    constructor
    · rcases parse_wide_string_nul_cases (bytes_to_u16 bytes) with h | h <;>
        · show parse_value_type_data 1 (bytes_to_u16 bytes) ≠ _
          rw [parse_value_type_data_string, h]
          simp [Except.map]
    · rcases parse_wide_string_nul_cases (bytes_to_u16 bytes) with h | h <;>
        · show parse_value_type_data 2 (bytes_to_u16 bytes) ≠ _
          rw [parse_value_type_data_expandString, h]
          simp [Except.map]
  · rcases parse_wide_string_nul_cases (bytes_to_u16 bytes) with h | h <;>
      · show parse_value_type_data 1 (bytes_to_u16 bytes) ≠ _
        rw [parse_value_type_data_string, h]
        simp [Except.map]
  · rcases parse_wide_string_nul_cases (bytes_to_u16 bytes) with h | h <;>
      · show parse_value_type_data 2 (bytes_to_u16 bytes) ≠ _
        rw [parse_value_type_data_expandString, h]
        simp [Except.map]

/-- Claim C4 witness: instantiated at the 1-byte buffer `[0x61]`. -/
theorem c4_witness :
    ([0x61] : List Nat).length % 2 = 1 ∧
    decode 1 [0x61] = decode 1 [0x61, 0] :=
  ⟨by decide, (c4_odd_length_padded [0x61] (by decide)).1.1⟩

/-- Claim C5: every tag strictly greater than 11 is rejected with
`UnhandledType` carrying that tag, for every buffer; and for tags in
`[0, 11]` decode never fails with `UnhandledType`. -/
theorem c5_tag_validation (tag : Nat) (bytes : List Nat) :
    (11 < tag → decode tag bytes = some (.error (.unhandledType tag))) ∧
    (tag ≤ 11 → ∀ t, decode tag bytes ≠ some (.error (.unhandledType t))) := by
  constructor
  · intro h
    exact parse_value_type_data_gt tag (bytes_to_u16 bytes) h
  · intro hle t heq
    interval_cases tag
    · rw [show decode 0 bytes = some (.ok .none) from rfl] at heq
      simp at heq
    · rw [show decode 1 bytes =
          some ((parse_wide_string_nul (bytes_to_u16 bytes)).map Data.string) from rfl] at heq
      rcases parse_wide_string_nul_cases (bytes_to_u16 bytes) with h | h <;>
        · rw [h] at heq
          simp [Except.map] at heq
    · rw [show decode 2 bytes =
          some ((parse_wide_string_nul (bytes_to_u16 bytes)).map Data.expandString) from
        rfl] at heq
      rcases parse_wide_string_nul_cases (bytes_to_u16 bytes) with h | h <;>
        · rw [h] at heq
          simp [Except.map] at heq
    · rw [show decode 3 bytes =
          some (.ok (.binary (u16_to_u8_vec (bytes_to_u16 bytes)))) from rfl] at heq
      simp at heq
    · have e : decode 4 bytes = parse_value_type_data 4 (bytes_to_u16 bytes) := rfl
      rcases parse_value_type_data_u32_shape (bytes_to_u16 bytes) with h | ⟨d, h⟩ <;>
        · rw [e, h] at heq
          simp at heq
    · have e : decode 5 bytes = parse_value_type_data 5 (bytes_to_u16 bytes) := rfl
      rcases parse_value_type_data_u32be_shape (bytes_to_u16 bytes) with h | ⟨d, h⟩ <;>
        · rw [e, h] at heq
          simp at heq
    · rw [show decode 6 bytes = some (.ok .link) from rfl] at heq
      simp at heq
    · rw [show decode 7 bytes =
          some ((parse_wide_multi_string (bytes_to_u16 bytes)).map Data.multiString) from
        rfl] at heq
      by_cases hg : 2 ≤ (bytes_to_u16 bytes).length ∧
          (bytes_to_u16 bytes).getD ((bytes_to_u16 bytes).length - 1) 0 = 0 ∧
          (bytes_to_u16 bytes).getD ((bytes_to_u16 bytes).length - 2) 0 = 0
      · rw [parse_wide_multi_string_ok _ hg] at heq
        simp [Except.map] at heq
      · rw [parse_wide_multi_string_fail _ hg] at heq
        simp [Except.map] at heq
    · rw [show decode 8 bytes = some (.ok .resourceList) from rfl] at heq
      simp at heq
    · rw [show decode 9 bytes = some (.ok .fullResourceDescriptor) from rfl] at heq
      simp at heq
    · rw [show decode 10 bytes = some (.ok .resourceRequirementsList) from rfl] at heq
      simp at heq
    · have e : decode 11 bytes = parse_value_type_data 11 (bytes_to_u16 bytes) := rfl
      rcases parse_value_type_data_u64_shape (bytes_to_u16 bytes) with h | ⟨d, h⟩ <;>
        · rw [e, h] at heq
          simp at heq

/-- Claim C5 witness: instantiated at tags 12, `0xFFFFFFFF` and 4. -/
theorem c5_witness :
    decode 12 [1, 2, 3] = some (.error (.unhandledType 12)) ∧
    decode 0xFFFFFFFF [] = some (.error (.unhandledType 0xFFFFFFFF)) ∧
    decode 4 [1, 2, 3, 4] ≠ some (.error (.unhandledType 4)) :=
  ⟨(c5_tag_validation 12 [1, 2, 3]).1 (by decide),
    (c5_tag_validation 0xFFFFFFFF []).1 (by norm_num),
    (c5_tag_validation 4 [1, 2, 3, 4]).2 (by decide) 4⟩

/-- Claim C6: decoding the MultiString tag fails with `MissingMultiNul`
unless the buffer holds at least two code units with the last two both
zero; on success the result is exactly the list of segments obtained by
splitting the code units preceding the final two zero units on single zero
units (so the terminating double-NUL never yields a trailing empty entry),
order preserved. -/
theorem c6_multistring_decode_contract (bytes : List Nat) :
    (¬(2 ≤ (bytes_to_u16 bytes).length ∧
        (bytes_to_u16 bytes).getD ((bytes_to_u16 bytes).length - 1) 0 = 0 ∧
        (bytes_to_u16 bytes).getD ((bytes_to_u16 bytes).length - 2) 0 = 0) →
      decode 7 bytes = some (.error .missingMultiNul)) ∧
    ((2 ≤ (bytes_to_u16 bytes).length ∧
        (bytes_to_u16 bytes).getD ((bytes_to_u16 bytes).length - 1) 0 = 0 ∧
        (bytes_to_u16 bytes).getD ((bytes_to_u16 bytes).length - 2) 0 = 0) →
      decode 7 bytes = some (.ok (.multiString
        (((bytes_to_u16 bytes).take ((bytes_to_u16 bytes).length - 2)).splitOn 0)))) := by
  constructor
  · intro h
    show parse_value_type_data 7 (bytes_to_u16 bytes) = _
    rw [parse_value_type_data_multiString, parse_wide_multi_string_fail _ h]
    rfl
  · intro h
    show parse_value_type_data 7 (bytes_to_u16 bytes) = _
    rw [parse_value_type_data_multiString, parse_wide_multi_string_ok _ h]
    rfl

/-- Claim C6 witness: a buffer without the double terminator is rejected
and a well-terminated buffer splits into its segments. -/
theorem c6_witness :
    decode 7 [0x61, 0x00] = some (.error .missingMultiNul) ∧
    decode 7 [0x61, 0x00, 0x00, 0x00, 0x00, 0x00] =
      some (.ok (.multiString [[0x61]])) :=
  ⟨(c6_multistring_decode_contract [0x61, 0x00]).1 (by decide),
    ((c6_multistring_decode_contract [0x61, 0x00, 0x00, 0x00, 0x00, 0x00]).2
      (by decide)).trans rfl⟩

/-- Claim C7: `U32` encodes as exactly the 4 bytes of the value in
little-endian order, `U32BE` as the same 4 bytes reversed (big-endian), and
`U64` as exactly the 8 bytes of the value in little-endian order; in
particular `0x1234FEFE` encodes as `[FE, FE, 34, 12]` under U32 and
`[12, 34, FE, FE]` under U32BE. -/
theorem c7_numeric_encode_layout :
    (∀ v, v < 2 ^ 32 →
      (Data.to_bytes (.u32 v)).length = 4 ∧
      le_val (Data.to_bytes (.u32 v)) = v ∧
      Data.to_bytes (.u32be v) = (Data.to_bytes (.u32 v)).reverse) ∧
    (∀ w, w < 2 ^ 64 →
      (Data.to_bytes (.u64 w)).length = 8 ∧
      le_val (Data.to_bytes (.u64 w)) = w) ∧
    Data.to_bytes (.u32 0x1234FEFE) = [0xFE, 0xFE, 0x34, 0x12] ∧
    Data.to_bytes (.u32be 0x1234FEFE) = [0x12, 0x34, 0xFE, 0xFE] := by
  refine ⟨?_, ?_, rfl, rfl⟩
  · intro v hv
    refine ⟨rfl, ?_, rfl⟩
    show le_val (u32le v) = v
    simp only [u32le, le_val]
    omega
  · intro w hw
    refine ⟨rfl, ?_⟩
    show le_val (u64le w) = w
    simp only [u64le, le_val]
    omega

/-- Claim C7 witness: instantiated at `0x1234FEFE` and a 64-bit value. -/
theorem c7_witness :
    (0x1234FEFE < 2 ^ 32 ∧ le_val (Data.to_bytes (.u32 0x1234FEFE)) = 0x1234FEFE) ∧
    (0x1122334455667788 < 2 ^ 64 ∧
      le_val (Data.to_bytes (.u64 0x1122334455667788)) = 0x1122334455667788) :=
  ⟨⟨by norm_num, (c7_numeric_encode_layout.1 0x1234FEFE (by norm_num)).2.1⟩,
    ⟨by norm_num, (c7_numeric_encode_layout.2.1 0x1122334455667788 (by norm_num)).2⟩⟩

/-- Claim C8: encoding `String(text)` (or `ExpandString(text)`) yields the
UTF-16 code units of the text followed by one zero code unit, each unit as
two bytes low byte first — recovering little-endian byte pairs gives back
`text ++ [0]` — and the byte length is exactly `2 * (code-unit count + 1)`. -/
theorem c8_string_encode_layout (s : List Nat) (h : ∀ c ∈ s, c < 65536) :
    (Data.to_bytes (.string s)).length = 2 * (s.length + 1) ∧
    bytes_to_u16 (Data.to_bytes (.string s)) = s ++ [0] ∧
    Data.to_bytes (.expandString s) = Data.to_bytes (.string s) := by
  refine ⟨?_, ?_, rfl⟩
  · show (string_to_utf16_byte_vec s).length = 2 * (s.length + 1)
    unfold string_to_utf16_byte_vec U16CString.into_vec_with_nul
    rw [flatMap_u16le_length]
    simp
  · show bytes_to_u16 (string_to_utf16_byte_vec s) = s ++ [0]
    unfold string_to_utf16_byte_vec U16CString.into_vec_with_nul
    apply bytes_to_u16_flatMap_u16le
    intro u hu
    rcases List.mem_append.mp hu with hu | hu
    · exact h u hu
    · simp at hu
      omega

/-- Claim C8 witness: the one-character string `"a"` encodes to the four
bytes `61 00 00 00`. -/
theorem c8_witness :
    (∀ c ∈ ([0x61] : List Nat), c < 65536) ∧
    Data.to_bytes (.string [0x61]) = [0x61, 0x00, 0x00, 0x00] ∧
    (Data.to_bytes (.string [0x61])).length = 2 * (([0x61] : List Nat).length + 1) :=
  ⟨by decide, rfl, (c8_string_encode_layout [0x61] (by decide)).1⟩

/-- Claim C9: allocating a buffer of any size yields exactly that many
zero bytes; and converting a byte buffer into code units pads it with one
trailing zero byte when its length is odd, yields `⌈length / 2⌉` code
units, and the code units' little-endian bytes agree with the original
buffer (followed only by the possible padding byte). -/
theorem c9_alignment_helper :
    (∀ size, U16AlignedU8Vec.new size = List.replicate size 0) ∧
    (∀ buf : List Nat, (∀ b ∈ buf, b < 256) →
      (U16AlignedU8Vec.into_u16_vec buf).length = (buf.length + 1) / 2 ∧
      u16_to_u8_vec (U16AlignedU8Vec.into_u16_vec buf) =
        buf ++ (if buf.length % 2 > 0 then [0] else [])) := by
  constructor
  · intro size
    unfold U16AlignedU8Vec.new u16_to_u8_vec
    rw [List.flatMap_replicate, show u16le 0 = List.replicate 2 0 from rfl,
      List.flatten_replicate_replicate, List.take_replicate]
    congr 1
    omega
  · intro buf h
    by_cases ho : buf.length % 2 > 0
    · have hpad : U16AlignedU8Vec.into_u16_vec buf = bytes_to_u16 (buf ++ [0]) := by
        unfold U16AlignedU8Vec.into_u16_vec
        rw [if_pos ho]
      constructor
      · rw [hpad, bytes_to_u16_length]
        simp
        omega
      · rw [hpad, if_pos ho,
          u16_to_u8_vec_bytes_to_u16 (buf ++ [0])
            (by
              intro b hb
              rcases List.mem_append.mp hb with hb | hb
              · exact h b hb
              · simp at hb
                omega)
            (by simp; omega)]
    · have hpad : U16AlignedU8Vec.into_u16_vec buf = bytes_to_u16 buf := by
        unfold U16AlignedU8Vec.into_u16_vec
        rw [if_neg ho]
      constructor
      · rw [hpad, bytes_to_u16_length]
      · rw [hpad, if_neg ho, List.append_nil,
          u16_to_u8_vec_bytes_to_u16 buf h (by omega)]

/-- Claim C9 witness: instantiated at the odd-length buffer `[1, 2, 3]`. -/
theorem c9_witness :
    U16AlignedU8Vec.new 5 = List.replicate 5 0 ∧
    ((∀ b ∈ ([1, 2, 3] : List Nat), b < 256) ∧
      (U16AlignedU8Vec.into_u16_vec [1, 2, 3]).length = (3 + 1) / 2 ∧
      u16_to_u8_vec (U16AlignedU8Vec.into_u16_vec [1, 2, 3]) = [1, 2, 3, 0]) := by
  refine ⟨c9_alignment_helper.1 5, by decide, ?_, ?_⟩
  · exact (c9_alignment_helper.2 [1, 2, 3] (by decide)).1
  · exact ((c9_alignment_helper.2 [1, 2, 3] (by decide)).2).trans rfl

/-- Claim C10: decoding the MultiString tag on the bare double-NUL buffer
(four zero bytes, two zero code units) succeeds and returns the
one-element list containing the empty string; and no successful
MultiString decode ever returns the empty list. -/
theorem c10_bare_double_nul :
    decode 7 [0x00, 0x00, 0x00, 0x00] = some (.ok (.multiString [[]])) ∧
    ∀ bytes l, decode 7 bytes = some (.ok (.multiString l)) → l ≠ [] := by
  constructor
  · rfl
  · intro bytes l h
    rw [show decode 7 bytes =
        some ((parse_wide_multi_string (bytes_to_u16 bytes)).map Data.multiString) from
      rfl] at h
    cases hp : parse_wide_multi_string (bytes_to_u16 bytes) with
    | error e =>
      rw [hp] at h
      simp [Except.map] at h
    | ok l' =>
      rw [hp] at h
      simp only [Except.map, Option.some.injEq, Except.ok.injEq, Data.multiString.injEq] at h
      rw [← h]
      exact parse_wide_multi_string_ok_ne_nil _ _ hp

/-- Claim C10 witness: the hypothesis of the second conjunct discharged at
the bare double-NUL input itself. -/
theorem c10_witness :
    decode 7 [0x00, 0x00, 0x00, 0x00] = some (.ok (.multiString [[]])) ∧
    ([[]] : List (List Nat)) ≠ [] :=
  ⟨c10_bare_double_nul.1, c10_bare_double_nul.2 [0x00, 0x00, 0x00, 0x00] [[]] rfl⟩

end Registry
